import Mathlib

/-!
# Page-stack navigation of `internal/views/views.go`

A shallow embedding of the drill-down navigation code: the `row` / `page` /
`pages` data model, the mock fetch chain
`getTopics -> getTopic -> getPartition -> getMessage`, and the key handlers
`next`, `prev`, `sel`, `quit`.

Conventions.
* Go `int` values are integers; the three arithmetic operations of the
  handlers (`bod.size-1`, `cur++`, `cur--`) wrap to 64 bits.
* A Go runtime panic (index out of range, call of a nil function value,
  `make` with a negative length) is an explicit result, never a stuck term.
* The process-wide variables `pg` and `bod.size`, and the cursor row held by
  the toolkit view, are the three fields of `State`.
-/

set_option linter.dupNamespace false

namespace views

/-- Go's `error` values, identified by their message. -/
structure error where
  msg : String
deriving DecidableEq, Repr

/-- Runtime panics the navigation code can raise. -/
inductive Panic where
  | indexOutOfRange
  | nilFuncCall
  | makeSliceLenOutOfRange
deriving DecidableEq, Repr

/-- Result of a Go function returning `(T, error)` that may also panic. -/
inductive Res (α : Type) where
  | ok (a : α)
  | err (e : error)
  | panic (p : Panic)

structure row where
  args : String
  data : String
deriving DecidableEq, Repr

/-- The Go struct `page`; function-valued fields may be nil (`none`). -/
structure page where
  page : Int
  header : String
  body : List (List row)
  next : Option (Int → String → Res views.page)
  forward : Option (Int → String → Res (List row))
  back : Option (Int → String → Res (List row))

abbrev pages := List page

/-! ## Machine integers and slice indexing -/

def minInt64 : Int := -9223372036854775808

def maxInt64 : Int := 9223372036854775807

/-- Two's-complement wrap of an integer result to the 64-bit Go `int`. -/
def wrapInt64 (x : Int) : Int :=
  (x + 9223372036854775808) % 18446744073709551616 - 9223372036854775808

/-- Go slice indexing `xs[i]`: `none` stands for the runtime panic
"index out of range" (negative index, or index at or past the length). -/
def index {α : Type} (xs : List α) (i : Int) : Option α :=
  if i < 0 then none else xs[i.toNat]?

/-! ## Methods of `pages` -/

/-- Method `func (p pages) header() string`: `p[l-1].header`. -/
def pages.header (p : pages) : Option String :=
  match index p ((p.length : Int) - 1) with
  | none => none
  | some top => some top.header

/-- Method `func (p pages) body(page int) []row`: `p[l-1].body[page]`. -/
def pages.body (p : pages) (pageIdx : Int) : Option (List row) :=
  match index p ((p.length : Int) - 1) with
  | none => none
  | some top => index top.body pageIdx

/-- Method `func (p pages) sel(cur int) (page, row)`:
`page := p[l-1]; return page, page.body[page.page][cur]`. -/
def pages.sel (p : pages) (cur : Int) : Option (page × row) :=
  match index p ((p.length : Int) - 1) with
  | none => none
  | some top =>
    match index top.body top.page with
    | none => none
    | some rows =>
      match index rows cur with
      | none => none
      | some r => some (top, r)

/-! ## The mock fetch chain -/

def getMessage (_s : Int) (args : String) : Res page :=
  .ok {
    page := 0
    header := args
    body := [[⟨"", "\x7b\"name\": \"fred\"\x7d"⟩]]
    next := none
    forward := none
    back := none }

def getPartition (_s : Int) (args : String) : Res page :=
  .ok {
    page := 0
    header := args
    body := [[⟨"\x7b\"offset\": 0\x7d", "\x7b\"name\": \"fred\"\x7d"⟩,
              ⟨"\x7b\"offset\": 1\x7d", "\x7b\"name\": \"craig\"\x7d"⟩,
              ⟨"\x7b\"offset\": 2\x7d", "\x7b\"name\": \"laura\"\x7d"⟩]]
    next := some getMessage
    forward := none
    back := none }

def getTopic (_s : Int) (args : String) : Res page :=
  .ok {
    page := 0
    header := args
    body := [[⟨"partition 1", "partition 1"⟩,
              ⟨"partition 2", "partition 2"⟩,
              ⟨"partition 3", "partition 3"⟩]]
    next := some getPartition
    forward := none
    back := none }

/-- The row written at index `i` by the loop of `getTopics`:
`s := fmt.Sprintf("topic %d", i); r[i] = row{args: s, data: s}`. -/
def topicRow (i : Nat) : row :=
  let s := "topic " ++ toString i
  ⟨s, s⟩

/-- The slice `r` of `getTopics` once its loop has filled indices `0 .. s-1`. -/
def topicRows (s : Int) : List row :=
  (List.range s.toNat).map topicRow

/-- Function `getTopics`; `make([]row, s)` panics on a negative length. -/
def getTopics (s : Int) (_args : String) : Res page :=
  if s < 0 then .panic .makeSliceLenOutOfRange
  else .ok {
    page := 0
    header := "topics"
    body := [topicRows s]
    next := some getTopic
    forward := none
    back := none }

/-! ## Controller state and key handlers -/

/-- The mutable state the handlers touch: the global stack `pg`, the body
region's `bod.size`, and the cursor row `cy` held by the toolkit view (read by
`v.Cursor()`, written by `v.SetCursor(0, y)`). -/
structure State where
  pg : pages
  size : Int
  cy : Int

/-- What a key handler does: it returns its `error` (nil is `none`) leaving a
state behind, or the process panics. -/
inductive Outcome where
  | returned (e : Option error) (st : State)
  | panicked (p : Panic)

/-- The toolkit's `v.Cursor()`, second component. -/
def Cursor (st : State) : Int := st.cy

/-- The toolkit's `v.SetCursor(0, y)`: the view stores the cursor row and
reports no error (the view is taken to be tall enough for the row). -/
def SetCursor (st : State) (y : Int) : Outcome :=
  .returned none { st with cy := y }

/-- The toolkit's `ui.ErrQuit`. -/
def ErrQuit : error := ⟨"quit"⟩

/-- Handler `next`: `if cur < bod.size-1 { cur++ }; return v.SetCursor(0, cur)`. -/
def next (st : State) : Outcome :=
  let cur := Cursor st
  let cur := if cur < wrapInt64 (st.size - 1) then wrapInt64 (cur + 1) else cur
  SetCursor st cur

/-- Handler `prev`: `if cur > 0 { cur-- }; return v.SetCursor(0, cur)`. -/
def prev (st : State) : Outcome :=
  let cur := Cursor st
  let cur := if cur > 0 then wrapInt64 (cur - 1) else cur
  SetCursor st cur

/-- Handler `sel`:
`p, r := pg.sel(cur); n, err := p.next(0, r.args); if err != nil { return err };
pg = append(pg, n); return v.SetCursor(0, 0)`. -/
def sel (st : State) : Outcome :=
  let cur := Cursor st
  match pages.sel st.pg cur with
  | none => .panicked .indexOutOfRange
  | some (p, r) =>
    match p.next with
    | none => .panicked .nilFuncCall
    | some f =>
      match f 0 r.args with
      | .panic q => .panicked q
      | .err e => .returned (some e) st
      | .ok n => SetCursor { st with pg := st.pg ++ [n] } 0

/-- Handler `quit`: `return ui.ErrQuit`. -/
def quit (st : State) : Outcome :=
  .returned (some ErrQuit) st

/-- Start-up part of `GetLayout`: `p, err := getTopics(bod.size, "")`,
`log.Fatal(err)` on error, else `pg = []page{p}`. The argument is `bod.size`,
set by the region constructors from the window geometry; a fresh view has its
cursor on row 0. -/
def GetLayout (size : Int) : Res State :=
  match getTopics size "" with
  | .ok p => .ok { pg := [p], size := size, cy := 0 }
  | .err e => .err e
  | .panic q => .panic q

/-- The four bound handlers of `Keybindings`. -/
inductive Action where
  | next
  | prev
  | sel
  | quit
deriving DecidableEq, Repr

def step (st : State) : Action → Outcome
  | .next => next st
  | .prev => prev st
  | .sel => sel st
  | .quit => quit st

/-- Dispatch a sequence of key presses one at a time. A handler's returned
error leaves the state it returned with; a panic ends the process (`none`). -/
def runActions (st : State) : List Action → Option State
  | [] => some st
  | a :: as =>
    match step st a with
    | .returned _ st' => runActions st' as
    | .panicked _ => none

/-- The row-list `page.body[page.page]` of the top page, as read by `pages.sel`. -/
def CurrentRows (p : pages) : Option (List row) :=
  match index p ((p.length : Int) - 1) with
  | none => none
  | some top => index top.body top.page

/-- The state a handler left behind, when it returned. -/
def Outcome.state? : Outcome → Option State
  | .returned _ st => some st
  | .panicked _ => none

/-! ## Sample pages and states -/

/-- The root page for a viewport of three rows, as built by `getTopics 3 ""`. -/
def rootPage3 : page :=
  { page := 0, header := "topics", body := [topicRows 3],
    next := some getTopic, forward := none, back := none }

/-- The page `getTopic` builds for the key `"topic 2"`. -/
def topic2Page : page :=
  { page := 0, header := "topic 2",
    body := [[⟨"partition 1", "partition 1"⟩,
              ⟨"partition 2", "partition 2"⟩,
              ⟨"partition 3", "partition 3"⟩]],
    next := some getPartition, forward := none, back := none }

/-- A fetch function whose data source is down. -/
def failingFetch (_s : Int) (_args : String) : Res page :=
  .err ⟨"upstream unavailable"⟩

/-- A one-row page whose fetch function always returns an error. -/
def offlinePage : page :=
  { page := 0, header := "offline", body := [[⟨"k", "k"⟩]],
    next := some failingFetch, forward := none, back := none }

/-- A one-row page whose fetch function sizes its result by its first argument. -/
def sizedPage : page :=
  { page := 0, header := "sized", body := [[⟨"k", "k"⟩]],
    next := some getTopics, forward := none, back := none }

/-! ## Basic facts -/

theorem index_eq_getElem? {α : Type} (xs : List α) (i : Int) (h : 0 ≤ i) :
    index xs i = xs[i.toNat]? := by
  unfold index
  rw [if_neg (by omega)]

/-- Indexing `p[len(p)-1]` reads the last element, and fails on the empty slice. -/
theorem index_last {α : Type} (xs : List α) :
    index xs ((xs.length : Int) - 1) = xs.getLast? := by
  cases xs with
  | nil => rfl
  | cons x t =>
    rw [index_eq_getElem? _ _ (by simp only [List.length_cons]; omega),
      List.getLast?_eq_getElem?]
    congr 1
    simp only [List.length_cons]
    omega

theorem CurrentRows_of_top (p : pages) (top : page) (rows : List row)
    (htop : p.getLast? = some top) (hpage : 0 ≤ top.page)
    (hrows : top.body[top.page.toNat]? = some rows) :
    CurrentRows p = some rows := by
  unfold CurrentRows
  rw [index_last, htop]
  simp only
  rw [index_eq_getElem? _ _ hpage, hrows]

theorem pages_sel_of_top (p : pages) (cur : Int) (top : page) (rows : List row) (r : row)
    (htop : p.getLast? = some top) (hpage : 0 ≤ top.page)
    (hrows : top.body[top.page.toNat]? = some rows)
    (hcur : 0 ≤ cur) (hrow : rows[cur.toNat]? = some r) :
    pages.sel p cur = some (top, r) := by
  unfold pages.sel
  rw [index_last, htop]
  simp only
  rw [index_eq_getElem? _ _ hpage, hrows]
  simp only
  rw [index_eq_getElem? _ _ hcur, hrow]

/-! ## Select -/

/-- C1. On a non-empty stack whose top page has a fetch function, with the
cursor inside the active row-list of the top page: when the fetch call made by
`sel` (first argument 0, second the selected row's args) succeeds with page
`n`, `sel` returns a nil error, the stack is the old stack with `n` appended
(depth plus one, every earlier page in place, `n` on top) and the cursor is 0. -/
theorem sel_success_pushes_page (st : State) (top : page)
    (f : Int → String → Res page) (rows : List row) (r : row) (n : page)
    (htop : st.pg.getLast? = some top) (hnext : top.next = some f)
    (hpage : 0 ≤ top.page) (hrows : top.body[top.page.toNat]? = some rows)
    (hcur : 0 ≤ st.cy) (hrow : rows[st.cy.toNat]? = some r)
    (hf : f 0 r.args = .ok n) :
    sel st = .returned none { pg := st.pg ++ [n], size := st.size, cy := 0 }
    ∧ (st.pg ++ [n]).length = st.pg.length + 1
    ∧ (∀ k, k < st.pg.length → (st.pg ++ [n])[k]? = st.pg[k]?)
    ∧ (st.pg ++ [n]).getLast? = some n := by
  refine ⟨?_, ?_, ?_, ?_⟩
  · unfold sel Cursor
    simp only
    rw [pages_sel_of_top st.pg st.cy top rows r htop hpage hrows hcur hrow]
    simp only [hnext, hf]
    rfl
  · simp
  · intro k hk
    exact List.getElem?_append_left hk
  · simp

/-- C2. On a non-empty stack with the cursor inside the active row-list of the
top page: when the fetch call made by `sel` returns the error `e`, `sel`
returns that same error and leaves the state (stack, cursor, viewport size) as
it was. -/
theorem sel_fetch_error_keeps_state (st : State) (top : page)
    (f : Int → String → Res page) (rows : List row) (r : row) (e : error)
    (htop : st.pg.getLast? = some top) (hnext : top.next = some f)
    (hpage : 0 ≤ top.page) (hrows : top.body[top.page.toNat]? = some rows)
    (hcur : 0 ≤ st.cy) (hrow : rows[st.cy.toNat]? = some r)
    (hf : f 0 r.args = .err e) :
    sel st = .returned (some e) st := by
  unfold sel Cursor
  simp only
  rw [pages_sel_of_top st.pg st.cy top rows r htop hpage hrows hcur hrow]
  simp only [hnext, hf]

/-- Witness for C1: the root page of a three-row viewport, cursor on row 2. -/
theorem sel_success_pushes_page_witness :
    sel ⟨[rootPage3], 3, 2⟩ = .returned none ⟨[rootPage3] ++ [topic2Page], 3, 0⟩
    ∧ ([rootPage3] ++ [topic2Page]).length = [rootPage3].length + 1
    ∧ (∀ k, k < [rootPage3].length →
        ([rootPage3] ++ [topic2Page])[k]? = [rootPage3][k]?)
    ∧ ([rootPage3] ++ [topic2Page]).getLast? = some topic2Page :=
  sel_success_pushes_page ⟨[rootPage3], 3, 2⟩ rootPage3 getTopic (topicRows 3)
    (topicRow 2) topic2Page rfl rfl (by decide) rfl (by decide) rfl rfl

/-- Witness for C2: a page whose fetch function fails. -/
theorem sel_fetch_error_keeps_state_witness :
    sel ⟨[rootPage3, offlinePage], 3, 0⟩
      = .returned (some ⟨"upstream unavailable"⟩) ⟨[rootPage3, offlinePage], 3, 0⟩ :=
  sel_fetch_error_keeps_state ⟨[rootPage3, offlinePage], 3, 0⟩ offlinePage failingFetch
    [⟨"k", "k"⟩] ⟨"k", "k"⟩ ⟨"upstream unavailable"⟩ rfl rfl (by decide) rfl
    (by decide) rfl rfl

/-! ## Cursor movement -/

/-- C7. For every page stack and every cursor `0 ≤ cursor` (a 64-bit value),
`prev` returns a nil error, sets the cursor to `max (cursor - 1) 0` and leaves
the page stack (and the viewport size) unchanged. -/
theorem prev_moves_up (st : State) (h0 : 0 ≤ st.cy) (hmax : st.cy ≤ maxInt64) :
    prev st = .returned none { pg := st.pg, size := st.size, cy := max (st.cy - 1) 0 } := by
  unfold prev Cursor SetCursor
  simp only
  congr 2
  unfold maxInt64 at hmax
  unfold wrapInt64
  split <;> omega

/-- Witness for C7: cursor 2 moves to 1. -/
theorem prev_moves_up_witness :
    prev ⟨[rootPage3], 3, 2⟩ = .returned none ⟨[rootPage3], 3, max (2 - 1) 0⟩ :=
  prev_moves_up ⟨[rootPage3], 3, 2⟩ (by decide) (by decide)

/-- C6 on the code: with a viewport of 5 rows, `sel` then two presses of
`next` reach the three-row page built by `getTopic` with the cursor on its
last row 2, in range. `next` there moves the cursor to row 3, not to
`min (2 + 1) (3 - 1) = 2`: its clamp is `bod.size - 1`, not the last row of
the active row-list. Row 3 does not exist, and `sel` on it panics with index
out of range. -/
theorem next_moves_past_last_row :
    ∃ st0 st rows,
      GetLayout 5 = .ok st0
      ∧ runActions st0 [.sel, .next, .next] = some st
      ∧ st.pg.length = 2
      ∧ CurrentRows st.pg = some rows
      ∧ rows.length = 3
      ∧ 0 ≤ st.cy ∧ st.cy < (rows.length : Int)
      ∧ next st = .returned none ⟨st.pg, st.size, 3⟩
      ∧ next st
          ≠ .returned none ⟨st.pg, st.size, min (st.cy + 1) ((rows.length : Int) - 1)⟩
      ∧ sel ⟨st.pg, st.size, 3⟩ = .panicked .indexOutOfRange := by
  refine ⟨_, _, _, rfl, rfl, rfl, rfl, rfl, by decide, by decide, rfl, ?_, rfl⟩
  intro h
  have hc := congrArg (fun o => (Outcome.state? o).map (fun s => s.cy)) h
  revert hc
  decide

/-! ## Reachable states -/

theorem next_returned (st : State) :
    ∃ c, next st = .returned none { pg := st.pg, size := st.size, cy := c }
      ∧ (0 ≤ st.cy → st.cy < st.size → st.size ≤ maxInt64 → 0 ≤ c ∧ c < st.size) := by
  refine ⟨_, rfl, ?_⟩
  intro h0 hlt hmax
  unfold Cursor
  unfold maxInt64 at hmax
  unfold wrapInt64
  split <;> omega

theorem prev_returned (st : State) :
    ∃ c, prev st = .returned none { pg := st.pg, size := st.size, cy := c }
      ∧ (0 ≤ st.cy → st.cy < st.size → st.size ≤ maxInt64 → 0 ≤ c ∧ c < st.size) := by
  refine ⟨_, rfl, ?_⟩
  intro h0 hlt hmax
  unfold Cursor
  unfold maxInt64 at hmax
  unfold wrapInt64
  split <;> omega

/-- When `sel` returns, either nothing changed (a fetch error) or one page was
appended to a non-empty stack and the cursor is 0. -/
theorem sel_returned (st st' : State) (e : Option error)
    (h : sel st = .returned e st') :
    st' = st ∨ ∃ n, st.pg ≠ [] ∧ st' = { pg := st.pg ++ [n], size := st.size, cy := 0 } := by
  unfold sel at h
  simp only at h
  split at h
  · cases h
  · rename_i p r hsel
    split at h
    · cases h
    · split at h
      · cases h
      · cases h
        exact Or.inl rfl
      · rename_i n hn
        unfold SetCursor at h
        cases h
        refine Or.inr ⟨n, ?_, rfl⟩
        intro hnil
        rw [hnil] at hsel
        cases hsel

/-- One handler call that returns: the viewport size is kept, the stack is
kept or grows by one page at its end, and a cursor inside the viewport stays
inside it. -/
theorem step_returned (st st' : State) (a : Action) (e : Option error)
    (h : step st a = .returned e st') :
    st'.size = st.size
    ∧ (∃ t, st'.pg = st.pg ++ t)
    ∧ (0 ≤ st.cy → st.cy < st.size → st.size ≤ maxInt64 → 0 ≤ st'.cy ∧ st'.cy < st.size) := by
  cases a with
  | next =>
    obtain ⟨c, hc, hb⟩ := next_returned st
    simp only [step] at h
    rw [hc] at h
    cases h
    exact ⟨rfl, ⟨[], by simp⟩, hb⟩
  | prev =>
    obtain ⟨c, hc, hb⟩ := prev_returned st
    simp only [step] at h
    rw [hc] at h
    cases h
    exact ⟨rfl, ⟨[], by simp⟩, hb⟩
  | sel =>
    simp only [step] at h
    rcases sel_returned st st' e h with hs | ⟨n, _, hs⟩
    · subst hs
      exact ⟨rfl, ⟨[], by simp⟩, fun h0 hlt _ => ⟨h0, hlt⟩⟩
    · subst hs
      exact ⟨rfl, ⟨[n], rfl⟩, fun h0 hlt _ => ⟨le_refl 0, lt_of_le_of_lt h0 hlt⟩⟩
  | quit =>
    simp only [step, quit] at h
    cases h
    exact ⟨rfl, ⟨[], by simp⟩, fun h0 hlt _ => ⟨h0, hlt⟩⟩

/-- Any run that does not panic keeps the viewport size, extends the stack at
its end only, and keeps a cursor that is inside the viewport inside it. -/
theorem runActions_returned (acts : List Action) (st st' : State)
    (h : runActions st acts = some st') :
    st'.size = st.size
    ∧ (∃ t, st'.pg = st.pg ++ t)
    ∧ (0 ≤ st.cy → st.cy < st.size → st.size ≤ maxInt64 → 0 ≤ st'.cy ∧ st'.cy < st.size) := by
  induction acts generalizing st with
  | nil =>
    simp only [runActions] at h
    cases h
    exact ⟨rfl, ⟨[], by simp⟩, fun h0 hlt _ => ⟨h0, hlt⟩⟩
  | cons a as ih =>
    simp only [runActions] at h
    split at h
    · rename_i e st1 hstep
      obtain ⟨hsz1, ⟨t1, ht1⟩, hb1⟩ := step_returned st st1 a e hstep
      obtain ⟨hsz2, ⟨t2, ht2⟩, hb2⟩ := ih st1 h
      refine ⟨by rw [hsz2, hsz1], ⟨t1 ++ t2, by rw [ht2, ht1, List.append_assoc]⟩, ?_⟩
      intro h0 hlt hmax
      obtain ⟨h0a, hlta⟩ := hb1 h0 hlt hmax
      rw [← hsz1] at hlta hmax
      have := hb2 h0a hlta hmax
      rw [hsz1] at this
      exact this
    · cases h

theorem GetLayout_ok (size : Int) (st0 : State) (h : GetLayout size = .ok st0) :
    0 ≤ size ∧ ∃ root, getTopics size "" = .ok root ∧ st0 = ⟨[root], size, 0⟩
      ∧ root.page = 0 ∧ root.body = [topicRows size] := by
  unfold GetLayout at h
  unfold getTopics at h ⊢
  by_cases hs : size < 0
  · rw [if_pos hs] at h
    cases h
  · rw [if_neg hs] at h ⊢
    simp only at h
    cases h
    exact ⟨by omega, _, rfl, rfl, rfl, rfl⟩

theorem topicRows_length (s : Int) (hs : 0 ≤ s) : ((topicRows s).length : Int) = s := by
  unfold topicRows
  rw [List.length_map, List.length_range]
  omega

/-- Pressing `next` k times from cursor `c` walks the cursor to `c + k` while
that stays inside the viewport; the stack is untouched. -/
theorem runActions_next_replicate (k : Nat) (pg : pages) (size c : Int)
    (h0 : 0 ≤ c) (hlt : c + k < size) (hmax : size ≤ maxInt64) :
    runActions ⟨pg, size, c⟩ (List.replicate k Action.next) = some ⟨pg, size, c + k⟩ := by
  induction k generalizing c with
  | zero => simp [runActions]
  | succ k ih =>
    have hstep : next ⟨pg, size, c⟩ = .returned none ⟨pg, size, c + 1⟩ := by
      unfold next Cursor SetCursor
      simp only
      congr 2
      unfold maxInt64 at hmax
      unfold wrapInt64
      split <;> omega
    simp only [List.replicate_succ, runActions, step, hstep]
    rw [ih (c + 1) (by omega) (by push_cast at hlt; omega)]
    congr 2
    push_cast
    omega

theorem topicRows_getElem? (s : Int) (i : Nat) (hi : (i : Int) < s) :
    (topicRows s)[i]? = some (topicRow i) := by
  unfold topicRows
  rw [List.getElem?_map, List.getElem?_range (by omega)]
  rfl

/-- C3 on the code: with a viewport of 5 rows, `sel` on the root page pushes
the three-row page built by `getTopic`, and three presses of `next` then put
the cursor on row 3, outside `0 ≤ cursor < max 1 3`: a reachable state breaks
the cursor bound. `sel` relies on that bound, and in this state it panics with
index out of range. -/
theorem cursor_leaves_rows_then_sel_panics :
    ∃ st0 st rows,
      GetLayout 5 = .ok st0
      ∧ runActions st0 [.sel, .next, .next, .next] = some st
      ∧ CurrentRows st.pg = some rows
      ∧ rows.length = 3
      ∧ st.cy = 3
      ∧ ¬ (0 ≤ st.cy ∧ st.cy < max 1 (rows.length : Int))
      ∧ sel st = .panicked .indexOutOfRange
      ∧ runActions st0 [.sel, .next, .next, .next, .sel] = none :=
  ⟨_, _, _, rfl, rfl, rfl, rfl, rfl, by decide, rfl, rfl⟩

/-! ## The stack keeps its root -/

/-- C8. After initialization with the root page `getTopics size ""`, every
finite sequence of `next`, `prev`, `sel` and `quit` calls (handlers that return
an error included) leaves a non-empty stack whose first element is the root
page, at least as deep as before; and from any state so reached, further
calls only extend the stack at its end. -/
theorem stack_keeps_root (size : Int) (st0 st : State) (root : page)
    (acts : List Action)
    (hroot : getTopics size "" = .ok root)
    (hinit : GetLayout size = .ok st0) (hrun : runActions st0 acts = some st) :
    st.pg ≠ [] ∧ st.pg.head? = some root ∧ 1 ≤ st.pg.length
    ∧ st0.pg.length ≤ st.pg.length
    ∧ (∀ more st2, runActions st more = some st2 →
        st.pg.length ≤ st2.pg.length ∧ st2.pg.head? = some root
          ∧ ∃ t, st2.pg = st.pg ++ t) := by
  obtain ⟨_, root1, hroot1, hst0, _, _⟩ := GetLayout_ok size st0 hinit
  rw [hroot] at hroot1
  cases hroot1
  subst hst0
  obtain ⟨_, ⟨t, ht⟩, _⟩ := runActions_returned acts _ st hrun
  have hpg : st.pg = root :: t := ht
  refine ⟨by rw [hpg]; simp, by rw [hpg]; rfl, by rw [hpg]; simp, by rw [hpg]; simp, ?_⟩
  intro more st2 hmore
  obtain ⟨_, ⟨t2, ht2⟩, _⟩ := runActions_returned more st st2 hmore
  refine ⟨by rw [ht2]; simp, by rw [ht2, hpg]; rfl, t2, ht2⟩

/-- Witness for C8: a three-row viewport and the key presses `sel`, `quit`,
`next`, `sel`. -/
theorem stack_keeps_root_witness :
    ∃ st, runActions ⟨[rootPage3], 3, 0⟩ [.sel, .quit, .next, .sel] = some st
      ∧ st.pg.length = 3
      ∧ (st.pg ≠ [] ∧ st.pg.head? = some rootPage3 ∧ 1 ≤ st.pg.length
          ∧ (⟨[rootPage3], 3, 0⟩ : State).pg.length ≤ st.pg.length
          ∧ (∀ more st2, runActions st more = some st2 →
              st.pg.length ≤ st2.pg.length ∧ st2.pg.head? = some rootPage3
                ∧ ∃ t, st2.pg = st.pg ++ t)) :=
  ⟨_, rfl, rfl,
    stack_keeps_root 3 ⟨[rootPage3], 3, 0⟩ _ rootPage3 [.sel, .quit, .next, .sel]
      rfl rfl rfl⟩

/-! ## Root drill-down -/

/-- C9. For every viewport size `1 ≤ s` (a 64-bit value) and every row index
`i < s`: initialization gives the stack `[getTopics s ""]` with cursor 0; the
root page has exactly `s` rows and row `i` has args and data `"topic i"`;
`i` presses of `next` leave the cursor on row `i`; `sel` then calls the fetch
function `getTopic` with key `"topic i"` and returns with a stack of depth 2
whose top page has header `"topic i"`, cursor 0. -/
theorem root_drill_down (s : Int) (i : Nat)
    (hs : 1 ≤ s) (hmax : s ≤ maxInt64) (hi : (i : Int) < s) :
    ∃ root top,
      getTopics s "" = .ok root
      ∧ GetLayout s = .ok ⟨[root], s, 0⟩
      ∧ CurrentRows [root] = some (topicRows s)
      ∧ ((topicRows s).length : Int) = s
      ∧ (topicRows s)[i]? = some ⟨"topic " ++ toString i, "topic " ++ toString i⟩
      ∧ runActions ⟨[root], s, 0⟩ (List.replicate i Action.next) = some ⟨[root], s, i⟩
      ∧ pages.sel [root] i
          = some (root, ⟨"topic " ++ toString i, "topic " ++ toString i⟩)
      ∧ root.next = some getTopic
      ∧ getTopic 0 ("topic " ++ toString i) = .ok top
      ∧ sel ⟨[root], s, i⟩ = .returned none ⟨[root, top], s, 0⟩
      ∧ [root, top].length = 2
      ∧ top.header = "topic " ++ toString i := by
  have hnn : ¬ s < 0 := by omega
  have hrow : (topicRows s)[(i : Int).toNat]?
      = some ⟨"topic " ++ toString i, "topic " ++ toString i⟩ := by
    rw [Int.toNat_ofNat]
    exact topicRows_getElem? s i hi
  have hsel : pages.sel [
        ({ page := 0, header := "topics", body := [topicRows s],
           next := some getTopic, forward := none, back := none } : page)] i
      = some (_, ⟨"topic " ++ toString i, "topic " ++ toString i⟩) :=
    pages_sel_of_top _ _ _ (topicRows s) _ rfl (le_refl 0) rfl (Int.ofNat_nonneg i) hrow
  refine ⟨{ page := 0, header := "topics", body := [topicRows s],
            next := some getTopic, forward := none, back := none }, _,
    ?_, ?_, rfl, topicRows_length s (by omega), topicRows_getElem? s i hi, ?_, hsel, rfl,
    rfl, ?_, rfl, rfl⟩
  · unfold getTopics
    rw [if_neg hnn]
  · unfold GetLayout getTopics
    rw [if_neg hnn]
  · have h := runActions_next_replicate i [
        ({ page := 0, header := "topics", body := [topicRows s],
           next := some getTopic, forward := none, back := none } : page)] s 0
      (le_refl 0) (by omega) hmax
    rw [zero_add] at h
    exact h
  · unfold sel Cursor
    simp only
    rw [hsel]
    rfl

/-- Witness for C9: `s = 3`, `i = 2` gives header `"topic 2"`. -/
theorem root_drill_down_witness :
    ∃ root top,
      getTopics 3 "" = .ok root
      ∧ GetLayout 3 = .ok ⟨[root], 3, 0⟩
      ∧ CurrentRows [root] = some (topicRows 3)
      ∧ ((topicRows 3).length : Int) = 3
      ∧ (topicRows 3)[2]? = some ⟨"topic 2", "topic 2"⟩
      ∧ runActions ⟨[root], 3, 0⟩ [.next, .next] = some ⟨[root], 3, 2⟩
      ∧ pages.sel [root] 2 = some (root, ⟨"topic 2", "topic 2"⟩)
      ∧ root.next = some getTopic
      ∧ getTopic 0 "topic 2" = .ok top
      ∧ sel ⟨[root], 3, 2⟩ = .returned none ⟨[root, top], 3, 0⟩
      ∧ [root, top].length = 2
      ∧ top.header = "topic 2" :=
  root_drill_down 3 2 (by decide) (by decide) (by decide)

/-! ## Handler panics -/

/-- C4 on the code: three `sel` presses from the root reach the page built by
`getMessage`, which has no fetch function, with the cursor on its only row;
`sel` there does not return: it calls the nil function value and panics. -/
theorem sel_on_message_page_panics :
    ∃ st0 st rows,
      GetLayout 3 = .ok st0
      ∧ runActions st0 [.sel, .sel, .sel] = some st
      ∧ st.pg.length = 4
      ∧ st.pg.getLast?.map (fun p => p.next.isSome) = some false
      ∧ CurrentRows st.pg = some rows
      ∧ 0 ≤ st.cy ∧ st.cy < (rows.length : Int)
      ∧ sel st = .panicked .nilFuncCall
      ∧ runActions st0 [.sel, .sel, .sel, .sel] = none :=
  ⟨_, _, _, rfl, rfl, rfl, rfl, rfl, by decide, by decide, rfl, rfl⟩

/-- C5 on the code: with a viewport of 0 rows the root page `getTopics 0 ""`
has an empty active row-list, and `sel` indexes it without a guard: the
handler panics with index out of range. -/
theorem sel_on_empty_rows_panics :
    ∃ st0,
      GetLayout 0 = .ok st0
      ∧ CurrentRows st0.pg = some []
      ∧ st0.cy = 0
      ∧ pages.sel st0.pg st0.cy = none
      ∧ sel st0 = .panicked .indexOutOfRange :=
  ⟨_, rfl, rfl, rfl, rfl, rfl⟩

/-- C10 on the code: with viewport size 3, on a page whose fetch function is
`getTopics`, `sel` pushes the page `getTopics 0 "k"` (no rows), not the page
`getTopics 3 "k"` (three rows): the first argument of the fetch call is the
constant 0, whereas `GetLayout` passes the viewport size. -/
theorem sel_passes_zero_not_viewport_size :
    ∃ p0 p3,
      getTopics 0 "k" = .ok p0
      ∧ getTopics 3 "k" = .ok p3
      ∧ sizedPage.next = some getTopics
      ∧ pages.sel [sizedPage] 0 = some (sizedPage, ⟨"k", "k"⟩)
      ∧ sel ⟨[sizedPage], 3, 0⟩ = .returned none ⟨[sizedPage, p0], 3, 0⟩
      ∧ p0.body = [[]]
      ∧ p3.body.map List.length = [3]
      ∧ sel ⟨[sizedPage], 3, 0⟩ ≠ .returned none ⟨[sizedPage, p3], 3, 0⟩ := by
  refine ⟨_, _, rfl, rfl, rfl, rfl, rfl, rfl, rfl, ?_⟩
  intro h
  have hc := congrArg
    (fun o => (Outcome.state? o).map (fun s => s.pg.map (fun p => p.body.map List.length))) h
  revert hc
  decide

end views
